import Mathlib

/-! Leaderboard refresh pipeline (`index.js`)

A shallow embedding of `fetchLeet`, `fetchAndSaveData` (with its inner
`processStudentData`) and the `GET /recent-submissions` handler.

Upstream bodies are untyped JavaScript values (`JSVal`); a thrown exception is
`none` in the `Option` monad, and every `try`/`catch` of the source is a
`match` on that option.
-/

namespace Leaderboard

/-! ## JavaScript values -/

/-- A value as `JSON.parse` produces it, plus `undefined` for what a missing
property reads as. Numbers are the integer-valued ones; an object lists each of its
properties once. -/
inductive JSVal where
  | undefined
  | null
  | bool (b : Bool)
  | num (n : Int)
  | str (s : String)
  | arr (items : List JSVal)
  | obj (fields : List (String × JSVal))

namespace JSVal

/-- Property read `v.name`, for a name that no built-in prototype defines
(`data`, `matchedUser`, `difficulty`, ...). Reading from `null` or `undefined`
throws a `TypeError` (`none`); an object yields the stored value or
`undefined`; any other value yields `undefined`. -/
def get (v : JSVal) (name : String) : Option JSVal :=
  match v with
  | undefined => none
  | null => none
  | obj fields =>
    match fields.find? (fun kv => kv.1 == name) with
    | some kv => some kv.2
    | none => some undefined
  | _ => some undefined

/-- ToBoolean. -/
def truthy : JSVal → Bool
  | undefined => false
  | null => false
  | bool b => b
  | num n => n != 0
  | str s => s.data != []
  | arr _ => true
  | obj _ => true

/-- The expression `v || []`. -/
def orEmpty (v : JSVal) : JSVal :=
  if v.truthy then v else arr []

end JSVal

open JSVal

/-! ## `fetchLeet` -/

/-- Outcome of one awaited `axios.post`: the promise rejects, or it resolves to a
response whose `.data` (the parsed body) is `body`. -/
inductive Post where
  | rejected
  | resolved (body : JSVal)

/-- The value of `await post`, `none` when the await throws. -/
def Post.await : Post → Option JSVal
  | rejected => none
  | resolved body => some body

/-- The `stats` object of `fetchLeet`. -/
structure Stats where
  totalSolved : JSVal
  easySolved : JSVal
  mediumSolved : JSVal
  hardSolved : JSVal

/-- The object `fetchLeet` returns. -/
structure Fetched where
  stats : Stats
  recentSubmissions : JSVal

/-- The initial `stats` literal (lines 58-63). -/
def zeroStats : Stats :=
  { totalSolved := num 0, easySolved := num 0, mediumSolved := num 0, hardSolved := num 0 }

/-- The object returned from the `catch` block (lines 90-98). -/
def zeroFetched : Fetched :=
  { stats := zeroStats, recentSubmissions := arr [] }

/-- The `forEach` callback (lines 65-82): the `switch` on `item.difficulty`
compares with `===`, so only a string can select a case. -/
def statsStep (stats : Stats) (item : JSVal) : Option Stats := do
  let difficulty ← item.get "difficulty"
  match difficulty with
  | str label =>
    if label = "All" then
      pure { stats with totalSolved := ← item.get "count" }
    else if label = "Easy" then
      pure { stats with easySolved := ← item.get "count" }
    else if label = "Medium" then
      pure { stats with mediumSolved := ← item.get "count" }
    else if label = "Hard" then
      pure { stats with hardSolved := ← item.get "count" }
    else
      pure stats
  | _ => pure stats

/-- The call `userStats.forEach(...)`: only an array has a `forEach` method, on
anything else the call throws. -/
def statsForEach (userStats : JSVal) (stats : Stats) : Option Stats :=
  match userStats with
  | arr items => items.foldlM statsStep stats
  | _ => none

/-- The chained read `statsResponse.data.data.matchedUser.submitStats.acSubmissionNum`
(line 55) on the body `statsResponse.data`; `none` when a link throws. -/
def readAcSubmissionNum (body : JSVal) : Option JSVal := do
  let data ← body.get "data"
  let matchedUser ← data.get "matchedUser"
  let submitStats ← matchedUser.get "submitStats"
  submitStats.get "acSubmissionNum"

/-- The chained read `recentSubResponse.data.data.recentAcSubmissionList` (line 56) on the
body `recentSubResponse.data`. -/
def readRecentList (body : JSVal) : Option JSVal := do
  let data ← body.get "data"
  data.get "recentAcSubmissionList"

/-- The `try` block of `fetchLeet` (lines 45-87). The recent-submissions request
is only issued once the stats request has resolved. -/
def fetchLeetTry (statsPost recentPost : Post) : Option Fetched := do
  let statsBody ← statsPost.await
  let recentBody ← recentPost.await
  let userStats := (← readAcSubmissionNum statsBody).orEmpty
  let recentSubmissions := (← readRecentList recentBody).orEmpty
  let stats ← statsForEach userStats zeroStats
  pure { stats := stats, recentSubmissions := recentSubmissions }

/-- The function `fetchLeet(username)`: the two posts' outcomes are the inputs; whatever
the `try` block throws is caught and answered with zeroed stats. -/
def fetchLeet (statsPost recentPost : Post) : Fetched :=
  match fetchLeetTry statsPost recentPost with
  | some result => result
  | none => zeroFetched

/-! ## Strings -/

/-- The call `s.startsWith(p)`. -/
def startsWith (s p : String) : Bool :=
  p.data.isPrefixOf s.data

/-- Worker of `split` for a non-empty separator, scanning left to right: `skip`
counts the characters of a matched separator still to pass over, `piece` holds the
current piece reversed. -/
def splitGo (sep : List Char) : List Char → Nat → List Char → List (List Char)
  | [], _, piece => [piece.reverse]
  | _ :: cs, skip + 1, piece => splitGo sep cs skip piece
  | c :: cs, 0, piece =>
    if sep.isPrefixOf (c :: cs) then piece.reverse :: splitGo sep cs (sep.length - 1) []
    else splitGo sep cs 0 (c :: piece)

/-- The call `s.split(sep)` for a non-empty separator string. -/
def split (s sep : String) : List String :=
  (splitGo sep.data s.data 0 []).map String.mk

/-- WhiteSpace and LineTerminator code points, the characters `trim` removes. -/
def isWhiteSpace (c : Char) : Bool :=
  [9, 10, 11, 12, 13, 32, 160, 5760, 8232, 8233, 8239, 8287, 12288, 65279].contains c.toNat
    || (8192 ≤ c.toNat && c.toNat ≤ 8202)

/-- The call `s.trim()`. -/
def trim (s : String) : String :=
  ⟨((s.data.dropWhile isWhiteSpace).reverse.dropWhile isWhiteSpace).reverse⟩

/-- The pipeline `content.split('\n').map(line => line.trim()).filter(Boolean)`:
a string is truthy when it is not empty. -/
def readLines (content : String) : List String :=
  ((split content "\n").map trim).filter (fun line => line.data != [])

/-! ## Sorting -/

/-- SortCompare of `Array.prototype.sort`: the comparator's number, with NaN
(`none`) read as `+0`. -/
def sortCompare {α : Type} (comparefn : α → α → Option Int) (x y : α) : Int :=
  match comparefn x y with
  | some v => v
  | none => 0

/-- One insertion step on the sorted part, held last element first: `element`
passes every `tmp` with `SortCompare(tmp, element) > 0`. -/
def insertBack {α : Type} (comparefn : α → α → Option Int) (element : α) : List α → List α
  | [] => [element]
  | tmp :: rest =>
    if sortCompare comparefn tmp element > 0 then tmp :: insertBack comparefn element rest
    else element :: tmp :: rest

/-- The built-in `Array.prototype.sort(comparefn)` on an array without `undefined`
elements: a stable sort that decides by SortCompare only. All such sorts agree when the
comparator is consistent, and on a two-element array, where one SortCompare result
decides; the model is straight insertion. On three or more elements with a comparator that
yields NaN the engine's order can differ from the model's: the theorems below use the order
of the result only for a consistent comparator or for at most two elements, and otherwise
only that the result is a permutation of the input. -/
def arraySort {α : Type} (comparefn : α → α → Option Int) (xs : List α) : List α :=
  (xs.foldl (fun sorted x => insertBack comparefn x sorted) []).reverse

/-- ToNumber, `none` being NaN. Text and objects are converted by the engine's
StringToNumber and ToPrimitive, taken as the parameter `coerce`. -/
def toNumber (coerce : JSVal → Option Int) : JSVal → Option Int
  | undefined => none
  | null => some 0
  | .bool b => some (if b then 1 else 0)
  | num n => some n
  | v => coerce v

/-- The expression `x - y`; only its sign is inspected by the sort. -/
def jsSub (coerce : JSVal → Option Int) (x y : JSVal) : Option Int := do
  let a ← toNumber coerce x
  let b ← toNumber coerce y
  pure (a - b)

/-! ## `fetchAndSaveData` -/

/-- The five roster files; `none` is a file that `readFileSync` cannot read. -/
structure Files where
  roll : Option String
  name : Option String
  urls : Option String
  sections : Option String
  day : Option String

/-- The five line lists `rolls`, `names`, `urls`, `sections`, `day`. -/
structure Roster where
  rolls : List String
  names : List String
  urls : List String
  sections : List String
  day : List String

/-- Lines 104-108; `none` when a read throws. -/
def loadRoster (files : Files) : Option Roster := do
  let rolls := readLines (← files.roll)
  let names := readLines (← files.name)
  let urls := readLines (← files.urls)
  let sections := readLines (← files.sections)
  let day := readLines (← files.day)
  pure { rolls := rolls, names := names, urls := urls, sections := sections, day := day }

/-- The object `studentData`; `sect` is its property `section`. In `roll`, `name`, `sect` and
`dayi`, `none` is the value `undefined` of an indexed read past the end of a list; in the
fields from `username` on, `none` is an absent property. -/
structure StudentData where
  roll : Option String
  name : Option String
  url : String
  sect : Option String
  dayi : Option String
  username : Option String
  totalSolved : Option JSVal
  easySolved : Option JSVal
  mediumSolved : Option JSVal
  hardSolved : Option JSVal
  recentSubmissions : Option JSVal
  info : Option String

/-- The upstream service: the outcomes of the stats post and of the recent-submissions
post that `fetchLeet` awaits when it is called for roster index `i`. -/
abbrev Upstream := Nat → Post × Post

/-- The profile prefix tested on line 125. -/
def profilePrefix : String := "https://leetcode.com/u/"

/-- Line 126, `url.split('/u/')[1]`; `none` is `undefined`. -/
def splitUsername (url : String) : Option String :=
  (split url "/u/")[1]?

/-- Line 127: drop the last character when it is `'/'`. -/
def stripTrailingSlash (username : String) : String :=
  if username.data.getLast? = some '/' then ⟨username.data.dropLast⟩ else username

/-- Lines 126-127, the username the refresh derives from a profile URL; `none` when
`charAt` is called on `undefined`. -/
def extractUsername (url : String) : Option String :=
  (splitUsername url).map stripTrailingSlash

/-- What one call `processStudentData(i)` does. -/
inductive Processed where
  /-- The call throws: its promise rejects. -/
  | threw
  /-- No `await` is reached: the record is pushed during the call itself. -/
  | direct (record : StudentData)
  /-- The call invokes `fetchLeet(username)` and pushes the record once that completes. -/
  | awaited (username : String) (record : StudentData)

/-- The inner function `processStudentData(i)` (lines 117-148). `fetchLeet` never throws,
so the `catch` on lines 140-142 is never entered. -/
def processStudentData (roster : Roster) (upstream : Upstream) (i : Nat) : Processed :=
  match roster.urls[i]? with
  | none => .threw
  | some url =>
    let studentData : StudentData :=
      { roll := roster.rolls[i]?, name := roster.names[i]?, url := url,
        sect := roster.sections[i]?, dayi := roster.day[i]?,
        username := none, totalSolved := none, easySolved := none, mediumSolved := none,
        hardSolved := none, recentSubmissions := none, info := none }
    if startsWith url profilePrefix then
      match extractUsername url with
      | none => .threw
      | some username =>
        let result := fetchLeet (upstream i).1 (upstream i).2
        .awaited username
          { studentData with
            username := some username
            totalSolved := some result.stats.totalSolved
            easySolved := some result.stats.easySolved
            mediumSolved := some result.stats.mediumSolved
            hardSolved := some result.stats.hardSolved
            recentSubmissions := some result.recentSubmissions }
    else
      .direct { studentData with info := some "No LeetCode data available" }

/-- The record a call pushes, if it does not throw. -/
def Processed.record? : Processed → Option StudentData
  | threw => none
  | direct record => some record
  | awaited _ record => some record

/-- The record a call pushes before the loop on lines 151-153 moves on. -/
def Processed.pushedInLoop? : Processed → Option StudentData
  | direct record => some record
  | _ => none

/-- The record a call pushes when its fetch completes. -/
def Processed.pushedLater? : Processed → Option StudentData
  | awaited _ record => some record
  | _ => none

/-- The username a call hands to `fetchLeet`. -/
def Processed.fetched? : Processed → Option String
  | awaited username _ => some username
  | _ => none

/-- Whether the call throws. -/
def Processed.isThrew : Processed → Bool
  | threw => true
  | _ => false

/-- The comparator on line 156, `(a, b) => b.totalSolved - a.totalSolved`; an absent
property reads as `undefined`. -/
def compareTotalSolved (coerce : JSVal → Option Int) (a b : StudentData) : Option Int :=
  jsSub coerce (b.totalSolved.getD undefined) (a.totalSolved.getD undefined)

/-- What one run of `fetchAndSaveData` does to the outside. -/
structure Refresh where
  /-- The usernames `fetchLeet` was called with, in call order. -/
  fetched : List String
  /-- The array handed to `writeFileSync('data.json', ...)`, `none` when nothing is written. -/
  written : Option (List StudentData)

/-- The function `fetchAndSaveData` (lines 102-163). The loop on lines 151-153 runs all calls
`processStudentData(i)` to their first `await`: a call without a profile URL pushes
its record there and then, a call with one pushes after its fetch completes. `order`
lists the indices of the awaited calls in the order their fetches complete. -/
def fetchAndSaveData (coerce : JSVal → Option Int) (files : Files) (upstream : Upstream)
    (order : List Nat) : Refresh :=
  match loadRoster files with
  | none => { fetched := [], written := none }
  | some roster =>
    if roster.rolls.length != roster.names.length || roster.names.length != roster.urls.length
        || roster.names.length != roster.sections.length then
      { fetched := [], written := none }
    else
      let calls := (List.range roster.rolls.length).map (processStudentData roster upstream)
      let fetched := calls.filterMap Processed.fetched?
      let pushedInLoop := calls.filterMap Processed.pushedInLoop?
      let pushedLater := order.filterMap fun i => (processStudentData roster upstream i).pushedLater?
      let combinedData := pushedInLoop ++ pushedLater
      if calls.any Processed.isThrew then
        { fetched := fetched, written := none }
      else
        { fetched := fetched, written := some (arraySort (compareTotalSolved coerce) combinedData) }

/-- The indices whose call `processStudentData(i)` awaits a fetch: those with a profile URL. -/
def pendingCalls (roster : Roster) : List Nat :=
  (List.range roster.rolls.length).filter fun i =>
    match roster.urls[i]? with
    | some url => startsWith url profilePrefix
    | none => false

/-- Content of `data.json` after a refresh that started with content `before` (`none`:
no such file), `stringify` being `JSON.stringify(·, null, 2)`. -/
def snapshotAfter (stringify : List StudentData → String) (before : Option String)
    (refresh : Refresh) : Option String :=
  match refresh.written with
  | some combinedData => some (stringify combinedData)
  | none => before

/-! ## `GET /recent-submissions` -/

/-- One object pushed on lines 184-188; in `username`, `none` is `undefined`. -/
structure RecentEntry where
  username : Option String
  title : JSVal
  timestamp : JSVal

/-- The callback of `submissions.forEach` (lines 183-189) on one element. -/
def recentEntry (username : Option String) (submission : JSVal) : Option RecentEntry := do
  let title ← submission.get "title"
  let timestamp ← submission.get "timestamp"
  pure { username := username, title := title, timestamp := timestamp }

/-- The call `submissions.forEach(...)` on lines 183-189: the entries it pushes, `none`
when it throws. -/
def recentForEach (username : Option String) (submissions : JSVal) : Option (List RecentEntry) :=
  match submissions with
  | arr items => items.mapM (recentEntry username)
  | _ => none

/-- The loop body for index `i` (lines 178-190): the entries it pushes, `none` when it
throws. -/
def recentStep (urls : List String) (upstream : Upstream) (i : Nat) : Option (List RecentEntry) :=
  match urls[i]? with
  | none => none
  | some url =>
    if startsWith url profilePrefix then
      let username := splitUsername url
      recentForEach username (fetchLeet (upstream i).1 (upstream i).2).recentSubmissions
    else
      some []

/-- The comparator on line 193, `(a, b) => b.timestamp - a.timestamp`. -/
def compareTimestamp (coerce : JSVal → Option Int) (a b : RecentEntry) : Option Int :=
  jsSub coerce b.timestamp a.timestamp

/-- Lines 173-191: the array `recentSubmissions` when the loop ends, `none` when a
statement throws. -/
def gatherRecent (files : Files) (upstream : Upstream) : Option (List RecentEntry) := do
  let rolls := readLines (← files.roll)
  let urls := readLines (← files.urls)
  let pushed ← (List.range rolls.length).mapM (recentStep urls upstream)
  pure pushed.flatten

/-- A JSON response body. -/
inductive Body where
  | entries (list : List RecentEntry)
  | message (text : String)

/-- An HTTP response: status code and body. -/
structure Response where
  status : Nat
  body : Body

/-- The handler of `GET /recent-submissions` (lines 171-204). -/
def recentSubmissionsHandler (coerce : JSVal → Option Int) (files : Files)
    (upstream : Upstream) : Response :=
  match gatherRecent files upstream with
  | none => { status := 500, body := .message "Error fetching recent submissions." }
  | some gathered =>
    let recentSubmissions := arraySort (compareTimestamp coerce) gathered
    if recentSubmissions.length > 0 then
      { status := 200, body := .entries recentSubmissions }
    else
      { status := 404, body := .message "No recent submissions found." }

/-! ## Specification-side definitions -/

/-- A value from which a property read throws. -/
def JSVal.isNullish : JSVal → Bool
  | undefined => true
  | null => true
  | _ => false

/-- The failures of the upstream work that make `fetchLeet` answer from its `catch` block. -/
inductive UpstreamFailure : Post → Post → Prop
  /-- The stats post rejects. -/
  | statsRejected (recentPost : Post) : UpstreamFailure .rejected recentPost
  /-- The recent-submissions post rejects, whatever the stats post brought. -/
  | recentRejected (statsPost : Post) : UpstreamFailure statsPost .rejected
  /-- `data.matchedUser` is missing or null. -/
  | noMatchedUser (body data matchedUser : JSVal) (recentPost : Post) :
      body.get "data" = some data → data.get "matchedUser" = some matchedUser →
      matchedUser.isNullish = true → UpstreamFailure (.resolved body) recentPost
  /-- `data.matchedUser.submitStats` is missing or null. -/
  | noSubmitStats (body data matchedUser submitStats : JSVal) (recentPost : Post) :
      body.get "data" = some data → data.get "matchedUser" = some matchedUser →
      matchedUser.get "submitStats" = some submitStats →
      submitStats.isNullish = true → UpstreamFailure (.resolved body) recentPost
  /-- `acSubmissionNum` is a truthy value that is not a list. -/
  | notAList (body value : JSVal) (recentPost : Post) :
      readAcSubmissionNum body = some value → value.truthy = true →
      (∀ items, value ≠ arr items) → UpstreamFailure (.resolved body) recentPost
  /-- `acSubmissionNum` is a list with a null element. -/
  | nullElement (body : JSVal) (items : List JSVal) (recentPost : Post) :
      readAcSubmissionNum body = some (arr items) → null ∈ items →
      UpstreamFailure (.resolved body) recentPost

/-- Whether `item.difficulty` is the string `label`. -/
def labelled (label : String) (item : JSVal) : Bool :=
  match item.get "difficulty" with
  | some (str s) => s == label
  | _ => false

/-- The value of `item.count`. -/
def countOf (item : JSVal) : JSVal :=
  (item.get "count").getD undefined

/-- The count of the last item of `items` labelled `label`, or `start` when no item carries
the label. -/
def lastCount (label : String) (start : JSVal) (items : List JSVal) : JSVal :=
  match (items.filter (labelled label)).getLast? with
  | some item => countOf item
  | none => start

/-- The stats the specification assigns to a list of `{difficulty, count}` items. -/
def specStats (items : List JSVal) : Stats :=
  { totalSolved := lastCount "All" (num 0) items
    easySolved := lastCount "Easy" (num 0) items
    mediumSolved := lastCount "Medium" (num 0) items
    hardSolved := lastCount "Hard" (num 0) items }

/-- Whether `item.difficulty` is one of the four labels the `switch` knows. -/
def knownLabel (item : JSVal) : Bool :=
  labelled "All" item || labelled "Easy" item || labelled "Medium" item || labelled "Hard" item

/-- The username the specification describes for a profile URL: the prefix removed, then
one trailing slash removed. -/
def specUsername (url : String) : String :=
  stripTrailingSlash ⟨url.data.drop profilePrefix.data.length⟩

/-- The key the specification ranks a record by: `totalSolved`, a record without it counting
as 0. -/
def specRank (record : StudentData) : Int :=
  match record.totalSolved with
  | some (num n) => n
  | _ => 0

/-- The tuple `{username, title, timestamp}` made from one submission. -/
def specEntry (username : Option String) (submission : JSVal) : RecentEntry :=
  { username := username
    title := (submission.get "title").getD undefined
    timestamp := (submission.get "timestamp").getD undefined }

/-- The tuples of roster index `i`: one per recent submission fetched for an entry with a
profile URL, none for any other entry. -/
def specEntriesAt (urls : List String) (upstream : Upstream) (i : Nat) : List RecentEntry :=
  match urls[i]? with
  | some url =>
    if startsWith url profilePrefix then
      match (fetchLeet (upstream i).1 (upstream i).2).recentSubmissions with
      | arr items => items.map (specEntry (splitUsername url))
      | _ => []
    else []
  | none => []

/-- The flattened list of tuples gathered from the first `count` roster entries. -/
def specGathered (urls : List String) (upstream : Upstream) (count : Nat) : List RecentEntry :=
  ((List.range count).map (specEntriesAt urls upstream)).flatten

/-- A value that `submissions.forEach` on lines 183-189 runs through without throwing: a list
none of whose elements is null or undefined. -/
def WellFormedRecent (submissions : JSVal) : Prop :=
  ∃ items, submissions = arr items ∧ ∀ item ∈ items, item.isNullish = false

/-! ## Sample inputs -/

/-- A stats response body whose `acSubmissionNum` is the given value. -/
def statsBody (acSubmissionNum : JSVal) : JSVal :=
  obj [("data", obj [("matchedUser", obj [("submitStats",
    obj [("acSubmissionNum", acSubmissionNum)])])])]

/-- A recent-submissions response body whose `recentAcSubmissionList` is the given value. -/
def recentBody (recentAcSubmissionList : JSVal) : JSVal :=
  obj [("data", obj [("recentAcSubmissionList", recentAcSubmissionList)])]

/-- An item `{difficulty, count}`. -/
def countItem (difficulty : String) (count : Int) : JSVal :=
  obj [("difficulty", str difficulty), ("count", num count)]

/-- One recent submission. -/
def sampleSubmission : JSVal :=
  obj [("title", str "Two Sum"), ("timestamp", str "1700000000")]

/-- An upstream where every stats post brings `All = total` and every recent-submissions post
brings the list `recent`. -/
def steadyUpstream (total : Int) (recent : List JSVal) : Upstream :=
  fun _ => (.resolved (statsBody (arr [countItem "All" total])), .resolved (recentBody (arr recent)))

/-- Roster files of two entries, the first without a profile URL, the second with one. -/
def plainThenProfile : Files :=
  { roll := some "1\n2", name := some "Asha\nBala",
    urls := some "none\nhttps://leetcode.com/u/bala", sections := some "X\nY",
    day := some "d1\nd2" }

/-- Roster files of two entries, the first with a profile URL, the second without one. -/
def profileThenPlain : Files :=
  { roll := some "1\n2", name := some "Bala\nAsha",
    urls := some "https://leetcode.com/u/bala\nnone", sections := some "Y\nX",
    day := some "d2\nd1" }

/-- The lines of `profileThenPlain`. -/
def profileThenPlainRoster : Roster :=
  { rolls := ["1", "2"], names := ["Bala", "Asha"],
    urls := ["https://leetcode.com/u/bala", "none"], sections := ["Y", "X"],
    day := ["d2", "d1"] }

/-- Roster files in which `name.txt` has one line less than the other files. -/
def shortNames : Files :=
  { roll := some "1\n2", name := some "Asha",
    urls := some "https://leetcode.com/u/bala\nnone", sections := some "Y\nX",
    day := some "d2\nd1" }

/-- The lines of `shortNames`. -/
def shortNamesRoster : Roster :=
  { rolls := ["1", "2"], names := ["Asha"],
    urls := ["https://leetcode.com/u/bala", "none"], sections := ["Y", "X"],
    day := ["d2", "d1"] }

/-- Roster files of one entry whose profile URL ends in a slash. -/
def slashProfile : Files :=
  { roll := some "1", name := some "Alice", urls := some "https://leetcode.com/u/alice/",
    sections := some "X", day := some "d1" }

/-- A recent submission with the timestamp 1. -/
def earlierSubmission : JSVal :=
  obj [("title", str "Two Sum"), ("timestamp", num 1)]

/-- A recent submission with the timestamp 2. -/
def laterSubmission : JSVal :=
  obj [("title", str "Add Two Numbers"), ("timestamp", num 2)]

/-- Roster files of one entry with a profile URL. -/
def singleProfile : Files :=
  { roll := some "1", name := some "Alice", urls := some "https://leetcode.com/u/alice",
    sections := some "X", day := some "d1" }

/-- Roster files with one roll number and two URLs, the second a profile URL. -/
def extraUrl : Files :=
  { roll := some "1", name := some "Asha", urls := some "none\nhttps://leetcode.com/u/alice",
    sections := some "X", day := some "d1" }

/-- Roster files with one line each in `roll.txt`, `name.txt`, `urls.txt` and `sections.txt`,
and a `day.txt` that cannot be read. -/
def unreadableDay : Files :=
  { roll := some "1", name := some "Asha", urls := some "none", sections := some "X",
    day := none }

/-! ## Supporting lemmas -/

theorem get_eq_none_iff (v : JSVal) (name : String) : v.get name = none ↔ v.isNullish = true := by
  cases v <;> simp [JSVal.get, JSVal.isNullish]
  split <;> simp

theorem statsStep_nullish (stats : Stats) (item : JSVal) (h : item.isNullish = true) :
    statsStep stats item = none := by
  have := (get_eq_none_iff item "difficulty").2 h
  simp [statsStep, this]

theorem foldlM_statsStep_nullish (items : List JSVal) (stats : Stats)
    (h : ∃ item ∈ items, item.isNullish = true) : items.foldlM statsStep stats = none := by
  induction items generalizing stats with
  | nil => simp at h
  | cons x xs ih =>
    rw [List.foldlM_cons]
    cases hx : statsStep stats x with
    | none => rfl
    | some s =>
      obtain ⟨item, hmem, hn⟩ := h
      rcases List.mem_cons.1 hmem with rfl | hmem
      · rw [statsStep_nullish stats item hn] at hx; cases hx
      · exact ih s ⟨item, hmem, hn⟩

theorem fetchLeet_of_throw (statsPost recentPost : Post)
    (h : fetchLeetTry statsPost recentPost = none) :
    fetchLeet statsPost recentPost = zeroFetched := by
  simp [fetchLeet, h]

theorem fetchLeetTry_of_failure (statsPost recentPost : Post)
    (h : UpstreamFailure statsPost recentPost) : fetchLeetTry statsPost recentPost = none := by
  cases h with
  | statsRejected => simp [fetchLeetTry, Post.await]
  | recentRejected => cases statsPost <;> simp [fetchLeetTry, Post.await]
  | noMatchedUser body data matchedUser _ h1 h2 h3 =>
    have h4 := (get_eq_none_iff matchedUser "submitStats").2 h3
    cases recentPost <;> simp [fetchLeetTry, Post.await, readAcSubmissionNum, h1, h2, h4]
  | noSubmitStats body data matchedUser submitStats _ h1 h2 h3 h4 =>
    have h5 := (get_eq_none_iff submitStats "acSubmissionNum").2 h4
    cases recentPost <;> simp [fetchLeetTry, Post.await, readAcSubmissionNum, h1, h2, h3, h5]
  | notAList body value _ h1 h2 h3 =>
    have h4 : ∀ stats, statsForEach value stats = none := by
      intro stats
      cases value <;> simp [statsForEach]
      exact (h3 _ rfl).elim
    cases recentPost with
    | rejected => simp [fetchLeetTry, Post.await]
    | resolved rb =>
      cases hr : readRecentList rb <;> simp [fetchLeetTry, Post.await, h1, hr, JSVal.orEmpty, h2, h4]
  | nullElement body items _ h1 h2 =>
    have h4 : ∀ stats, statsForEach (arr items) stats = none := by
      intro stats
      exact foldlM_statsStep_nullish items stats ⟨null, h2, rfl⟩
    cases recentPost with
    | rejected => simp [fetchLeetTry, Post.await]
    | resolved rb =>
      cases hr : readRecentList rb <;> simp [fetchLeetTry, Post.await, h1, hr, JSVal.orEmpty, JSVal.truthy, h4]

theorem fetchLeet_of_failure (statsPost recentPost : Post)
    (h : UpstreamFailure statsPost recentPost) : fetchLeet statsPost recentPost = zeroFetched :=
  fetchLeet_of_throw _ _ (fetchLeetTry_of_failure _ _ h)

theorem lastCount_cons (label : String) (start x : JSVal) (xs : List JSVal) :
    lastCount label start (x :: xs)
      = lastCount label (if labelled label x then countOf x else start) xs := by
  unfold lastCount
  by_cases h : labelled label x = true
  · simp only [List.filter_cons, h, if_true]
    cases hf : List.filter (labelled label) xs with
    | nil => simp
    | cons y ys => simp [List.getLast?_eq_getLast _ (List.cons_ne_nil y ys)]
  · simp [List.filter_cons, h]

theorem statsStep_obj (stats : Stats) (fields : List (String × JSVal)) :
    statsStep stats (obj fields) = some
      { totalSolved := if labelled "All" (obj fields) then countOf (obj fields) else stats.totalSolved
        easySolved := if labelled "Easy" (obj fields) then countOf (obj fields) else stats.easySolved
        mediumSolved := if labelled "Medium" (obj fields) then countOf (obj fields) else stats.mediumSolved
        hardSolved := if labelled "Hard" (obj fields) then countOf (obj fields) else stats.hardSolved } := by
  cases stats with
  | mk t e m h =>
  unfold statsStep labelled countOf
  cases hd : (obj fields).get "difficulty" with
  | none => simp [JSVal.get] at hd; split at hd <;> simp at hd
  | some d =>
    have hc : ∃ c, (obj fields).get "count" = some c := by
      simp [JSVal.get]; split <;> simp
    obtain ⟨c, hc⟩ := hc
    cases d <;> simp [hc]
    rename_i s
    by_cases h1 : s = "All"
    · subst h1; simp
    · by_cases h2 : s = "Easy"
      · subst h2; simp
      · by_cases h3 : s = "Medium"
        · subst h3; simp
        · by_cases h4 : s = "Hard"
          · subst h4; simp
          · simp [h1, h2, h3, h4]

theorem foldlM_statsStep_obj (items : List JSVal) (stats : Stats)
    (hitems : ∀ item ∈ items, ∃ fields, item = obj fields) :
    items.foldlM statsStep stats = some
      { totalSolved := lastCount "All" stats.totalSolved items
        easySolved := lastCount "Easy" stats.easySolved items
        mediumSolved := lastCount "Medium" stats.mediumSolved items
        hardSolved := lastCount "Hard" stats.hardSolved items } := by
  induction items generalizing stats with
  | nil => simp [lastCount]
  | cons x xs ih =>
    obtain ⟨fields, rfl⟩ := hitems x (List.mem_cons_self _ _)
    rw [List.foldlM_cons, statsStep_obj]
    simp only [Option.some_bind, Option.bind_eq_bind]
    rw [ih _ (fun item hmem => hitems item (List.mem_cons_of_mem _ hmem))]
    simp only [lastCount_cons]

theorem fetchLeetTry_wellFormed (statsBody recentBody recent : JSVal) (items : List JSVal)
    (hstats : readAcSubmissionNum statsBody = some (arr items))
    (hitems : ∀ item ∈ items, ∃ fields, item = obj fields)
    (hrecent : readRecentList recentBody = some recent) :
    fetchLeet (.resolved statsBody) (.resolved recentBody)
      = { stats := specStats items, recentSubmissions := recent.orEmpty } := by
  have hfold := foldlM_statsStep_obj items zeroStats hitems
  have htruthy : (arr items).orEmpty = arr items := rfl
  simp only [fetchLeet, fetchLeetTry, Post.await, hstats, hrecent, htruthy, statsForEach, hfold,
    Option.bind_eq_bind, Option.some_bind, Option.pure_def]
  rfl

theorem lastCount_filter_known (label : String) (start : JSVal) (items : List JSVal)
    (hlabel : label = "All" ∨ label = "Easy" ∨ label = "Medium" ∨ label = "Hard") :
    lastCount label start (items.filter knownLabel) = lastCount label start items := by
  unfold lastCount
  rw [List.filter_filter]
  congr 2
  apply List.filter_congr
  intro item _
  rcases hlabel with rfl | rfl | rfl | rfl <;> simp [knownLabel] <;> tauto

theorem splitGo_without_separator (sep rest piece : List Char) (h : ¬ sep <:+: rest) :
    splitGo sep rest 0 piece = [piece.reverse ++ rest] := by
  induction rest generalizing piece with
  | nil => simp [splitGo]
  | cons c cs ih =>
    have hpre : sep.isPrefixOf (c :: cs) = false := by
      cases hp : sep.isPrefixOf (c :: cs) with
      | false => rfl
      | true => exact absurd (List.isPrefixOf_iff_prefix.1 hp).isInfix h
    have htail : ¬ sep <:+: cs := fun hin => h (hin.trans (List.suffix_cons c cs).isInfix)
    rw [splitGo, if_neg (by simp [hpre]), ih _ htail]
    simp

theorem splitGo_ne_nil (sep s : List Char) (skip : Nat) (piece : List Char) :
    splitGo sep s skip piece ≠ [] := by
  induction s generalizing skip piece with
  | nil => simp [splitGo]
  | cons c cs ih =>
    cases skip with
    | zero =>
      rw [splitGo]
      split
      · simp
      · exact ih _ _
    | succ k => rw [splitGo]; exact ih _ _

theorem profilePrefix_data :
    profilePrefix.data = ['h','t','t','p','s',':','/','/','l','e','e','t','c','o','d','e','.','c','o','m','/','u','/'] := by
  rfl

theorem splitGo_profilePrefix (rest : List Char) :
    splitGo "/u/".data (profilePrefix.data ++ rest) 0 []
      = "https://leetcode.com".data :: splitGo "/u/".data rest 0 [] := by
  rw [profilePrefix_data]
  have h1 : "/u/".data = ['/','u','/'] := rfl
  have h2 : "https://leetcode.com".data = ['h','t','t','p','s',':','/','/','l','e','e','t','c','o','d','e','.','c','o','m'] := rfl
  rw [h1, h2]
  simp [splitGo, List.isPrefixOf]

theorem split_profile (url : String) (rest : List Char) (hurl : url.data = profilePrefix.data ++ rest) :
    split url "/u/" = "https://leetcode.com" :: (splitGo "/u/".data rest 0 []).map String.mk := by
  unfold split
  rw [hurl, splitGo_profilePrefix]
  rfl

theorem extractUsername_isSome (url : String) (hstart : startsWith url profilePrefix = true) :
    ∃ username, extractUsername url = some username := by
  obtain ⟨rest, hrest⟩ := List.isPrefixOf_iff_prefix.1 hstart
  have hs := split_profile url rest hrest.symm
  cases hgo : splitGo "/u/".data rest 0 [] with
  | nil => exact absurd hgo (splitGo_ne_nil _ _ _ _)
  | cons piece pieces =>
    refine ⟨stripTrailingSlash ⟨piece⟩, ?_⟩
    simp [extractUsername, splitUsername, hs, hgo]

theorem extractUsername_without_separator (url : String) (hstart : startsWith url profilePrefix = true)
    (hno : ¬ "/u/".data <:+: url.data.drop profilePrefix.data.length) :
    extractUsername url = some (specUsername url) := by
  obtain ⟨rest, hrest⟩ := List.isPrefixOf_iff_prefix.1 hstart
  have hs := split_profile url rest hrest.symm
  have hdrop : url.data.drop profilePrefix.data.length = rest := by
    rw [← hrest, List.drop_left]
  have hspec : specUsername url = stripTrailingSlash ⟨rest⟩ := by
    unfold specUsername
    rw [hdrop]
  rw [hdrop] at hno
  rw [splitGo_without_separator _ _ _ hno] at hs
  rw [hspec]
  simp [extractUsername, splitUsername, hs]

theorem processStudentData_direct (roster : Roster) (upstream : Upstream) (i : Nat) (url : String)
    (hurl : roster.urls[i]? = some url) (hpre : startsWith url profilePrefix = false) :
    processStudentData roster upstream i = .direct
      { roll := roster.rolls[i]?, name := roster.names[i]?, url := url,
        sect := roster.sections[i]?, dayi := roster.day[i]?,
        username := none, totalSolved := none, easySolved := none, mediumSolved := none,
        hardSolved := none, recentSubmissions := none,
        info := some "No LeetCode data available" } := by
  simp [processStudentData, hurl, hpre]

theorem processStudentData_awaited (roster : Roster) (upstream : Upstream) (i : Nat) (url : String)
    (hurl : roster.urls[i]? = some url) (hpre : startsWith url profilePrefix = true) :
    ∃ username, extractUsername url = some username ∧
    processStudentData roster upstream i = .awaited username
      { roll := roster.rolls[i]?, name := roster.names[i]?, url := url,
        sect := roster.sections[i]?, dayi := roster.day[i]?,
        username := some username,
        totalSolved := some (fetchLeet (upstream i).1 (upstream i).2).stats.totalSolved,
        easySolved := some (fetchLeet (upstream i).1 (upstream i).2).stats.easySolved,
        mediumSolved := some (fetchLeet (upstream i).1 (upstream i).2).stats.mediumSolved,
        hardSolved := some (fetchLeet (upstream i).1 (upstream i).2).stats.hardSolved,
        recentSubmissions := some (fetchLeet (upstream i).1 (upstream i).2).recentSubmissions,
        info := none } := by
  obtain ⟨username, hu⟩ := extractUsername_isSome url hpre
  exact ⟨username, hu, by simp [processStudentData, hurl, hpre, hu]⟩

theorem insertBack_perm {α : Type} (comparefn : α → α → Option Int) (element : α) (sorted : List α) :
    (insertBack comparefn element sorted).Perm (element :: sorted) := by
  induction sorted with
  | nil => simp [insertBack]
  | cons tmp rest ih =>
    rw [insertBack]
    split
    · exact (List.Perm.cons tmp ih).trans (List.Perm.swap element tmp rest)
    · exact List.Perm.refl _

theorem foldl_insertBack_perm {α : Type} (comparefn : α → α → Option Int) (xs sorted : List α) :
    (xs.foldl (fun sorted x => insertBack comparefn x sorted) sorted).Perm (xs ++ sorted) := by
  induction xs generalizing sorted with
  | nil => simp
  | cons x xs ih =>
    rw [List.foldl_cons]
    refine (ih _).trans ?_
    refine (List.Perm.append_left xs (insertBack_perm comparefn x sorted)).trans ?_
    exact List.perm_middle

theorem arraySort_perm {α : Type} (comparefn : α → α → Option Int) (xs : List α) :
    (arraySort comparefn xs).Perm xs := by
  unfold arraySort
  refine (List.reverse_perm _).trans ?_
  simpa using foldl_insertBack_perm comparefn xs []

theorem processStudentData_cases (roster : Roster) (upstream : Upstream) (i : Nat)
    (hi : i < roster.urls.length) :
    ∃ record, (processStudentData roster upstream i).record? = some record ∧
      (processStudentData roster upstream i).isThrew = false ∧
      ((processStudentData roster upstream i).pushedInLoop? = some record ∧
         (processStudentData roster upstream i).pushedLater? = none ∧
         (match roster.urls[i]? with
          | some url => startsWith url profilePrefix
          | none => false) = false ∨
       (processStudentData roster upstream i).pushedInLoop? = none ∧
         (processStudentData roster upstream i).pushedLater? = some record ∧
         (match roster.urls[i]? with
          | some url => startsWith url profilePrefix
          | none => false) = true) := by
  have hurl : roster.urls[i]? = some roster.urls[i] := List.getElem?_eq_getElem hi
  cases hpre : startsWith roster.urls[i] profilePrefix with
  | false =>
    rw [processStudentData_direct roster upstream i _ hurl hpre]
    exact ⟨_, rfl, rfl, Or.inl ⟨rfl, rfl, by simp [hurl, hpre]⟩⟩
  | true =>
    obtain ⟨username, _, hp⟩ := processStudentData_awaited roster upstream i _ hurl hpre
    rw [hp]
    exact ⟨_, rfl, rfl, Or.inr ⟨rfl, rfl, by simp [hurl, hpre]⟩⟩

theorem partition_perm (roster : Roster) (upstream : Upstream) (l : List Nat)
    (hl : ∀ i ∈ l, i < roster.urls.length) :
    (l.filterMap (fun i => (processStudentData roster upstream i).pushedInLoop?) ++
      (l.filter fun i =>
        match roster.urls[i]? with
        | some url => startsWith url profilePrefix
        | none => false).filterMap
        (fun i => (processStudentData roster upstream i).pushedLater?)).Perm
      (l.filterMap fun i => (processStudentData roster upstream i).record?) := by
  induction l with
  | nil => simp
  | cons x xs ih =>
    have ih := ih (fun i hmem => hl i (List.mem_cons_of_mem _ hmem))
    obtain ⟨record, hrec, _, h | h⟩ :=
      processStudentData_cases roster upstream x (hl x (List.mem_cons_self _ _))
    · obtain ⟨h1, h2, h3⟩ := h
      rw [List.filterMap_cons, h1, List.filter_cons, h3, List.filterMap_cons, hrec]
      simpa using ih
    · obtain ⟨h1, h2, h3⟩ := h
      rw [List.filterMap_cons, h1, List.filter_cons, h3, List.filterMap_cons (a := x) (l := xs), hrec]
      simp only [if_true, List.filterMap_cons, h2]
      exact List.perm_middle.trans (List.Perm.cons _ ih)

theorem fetchAndSaveData_written (coerce : JSVal → Option Int) (files : Files) (upstream : Upstream)
    (order : List Nat) (roster : Roster) (hload : loadRoster files = some roster)
    (hnames : roster.rolls.length = roster.names.length)
    (hurls : roster.names.length = roster.urls.length)
    (hsections : roster.names.length = roster.sections.length) :
    (fetchAndSaveData coerce files upstream order).written = some
      (arraySort (compareTotalSolved coerce)
        ((List.range roster.rolls.length).filterMap
            (fun i => (processStudentData roster upstream i).pushedInLoop?) ++
          order.filterMap fun i => (processStudentData roster upstream i).pushedLater?)) := by
  have hany : ((List.range roster.rolls.length).map (processStudentData roster upstream)).any
      Processed.isThrew = false := by
    rw [List.any_eq_false]
    intro call hmem
    obtain ⟨i, hi, rfl⟩ := List.mem_map.1 hmem
    have hlt : i < roster.urls.length := by
      have := List.mem_range.1 hi
      omega
    obtain ⟨_, _, hthrew, _⟩ := processStudentData_cases roster upstream i hlt
    simp [hthrew]
  have hcond : (roster.rolls.length != roster.names.length
      || roster.names.length != roster.urls.length
      || roster.names.length != roster.sections.length) = false := by
    simp only [Bool.or_eq_false_iff, bne_eq_false_iff_eq]
    exact ⟨⟨hnames, hurls⟩, hsections⟩
  simp only [fetchAndSaveData, hload, hcond, hany, List.filterMap_map, Function.comp_def]
  rfl

theorem snapshot_perm (coerce : JSVal → Option Int) (files : Files) (upstream : Upstream)
    (order : List Nat) (roster : Roster) (hload : loadRoster files = some roster)
    (hnames : roster.rolls.length = roster.names.length)
    (hurls : roster.names.length = roster.urls.length)
    (hsections : roster.names.length = roster.sections.length)
    (horder : order.Perm (pendingCalls roster)) :
    ∃ snapshot, (fetchAndSaveData coerce files upstream order).written = some snapshot ∧
      snapshot.Perm ((List.range roster.rolls.length).filterMap
        fun i => (processStudentData roster upstream i).record?) := by
  refine ⟨_, fetchAndSaveData_written coerce files upstream order roster hload hnames hurls
    hsections, ?_⟩
  refine (arraySort_perm _ _).trans ?_
  refine (List.Perm.append_left _ (horder.filterMap _)).trans ?_
  apply partition_perm
  intro i hi
  have := List.mem_range.1 hi
  omega

theorem mem_insertBack {α : Type} (comparefn : α → α → Option Int) (element x : α)
    (sorted : List α) : x ∈ insertBack comparefn element sorted ↔ x = element ∨ x ∈ sorted := by
  rw [(insertBack_perm comparefn element sorted).mem_iff, List.mem_cons]

theorem insertBack_pairwise {α : Type} (key : α → Int) (comparefn : α → α → Option Int)
    (element : α) (sorted : List α)
    (hcmp : ∀ tmp ∈ sorted, comparefn tmp element = some (key element - key tmp))
    (hsorted : sorted.Pairwise fun a b => key a ≤ key b) :
    (insertBack comparefn element sorted).Pairwise fun a b => key a ≤ key b := by
  induction sorted with
  | nil => simp [insertBack]
  | cons tmp rest ih =>
    have htmp := hcmp tmp (List.mem_cons_self _ _)
    have hrest := List.pairwise_cons.1 hsorted
    rw [insertBack]
    simp only [sortCompare, htmp]
    split
    · rename_i hlt
      refine List.pairwise_cons.2 ⟨?_, ih (fun t ht => hcmp t (List.mem_cons_of_mem _ ht)) hrest.2⟩
      intro b hb
      rcases (mem_insertBack comparefn element b rest).1 hb with rfl | hb
      · omega
      · exact hrest.1 b hb
    · rename_i hge
      refine List.pairwise_cons.2 ⟨?_, hsorted⟩
      intro b hb
      rcases List.mem_cons.1 hb with rfl | hb
      · omega
      · have := hrest.1 b hb
        omega

theorem foldl_insertBack_pairwise {α : Type} (key : α → Int) (comparefn : α → α → Option Int)
    (xs sorted : List α)
    (hcmp : ∀ a ∈ xs ++ sorted, ∀ b ∈ xs ++ sorted, comparefn a b = some (key b - key a))
    (hsorted : sorted.Pairwise fun a b => key a ≤ key b) :
    (xs.foldl (fun sorted x => insertBack comparefn x sorted) sorted).Pairwise
      fun a b => key a ≤ key b := by
  induction xs generalizing sorted with
  | nil => simpa using hsorted
  | cons x xs ih =>
    rw [List.foldl_cons]
    apply ih
    · intro a ha b hb
      apply hcmp
      · rcases List.mem_append.1 ha with h | h
        · exact List.mem_append_left _ (List.mem_cons_of_mem _ h)
        · rcases (mem_insertBack comparefn x a sorted).1 h with rfl | h
          · exact List.mem_append_left _ (List.mem_cons_self _ _)
          · exact List.mem_append_right _ h
      · rcases List.mem_append.1 hb with h | h
        · exact List.mem_append_left _ (List.mem_cons_of_mem _ h)
        · rcases (mem_insertBack comparefn x b sorted).1 h with rfl | h
          · exact List.mem_append_left _ (List.mem_cons_self _ _)
          · exact List.mem_append_right _ h
    · apply insertBack_pairwise key comparefn x sorted _ hsorted
      intro tmp htmp
      exact hcmp tmp (List.mem_append_right _ htmp) x
        (List.mem_append_left _ (List.mem_cons_self _ _))

/-- On records that all carry an integer `totalSolved`, the sort on line 156 yields descending
ranks. -/
theorem arraySort_totalSolved_descending (coerce : JSVal → Option Int) (xs : List StudentData)
    (h : ∀ record ∈ xs, ∃ n, record.totalSolved = some (num n)) :
    (arraySort (compareTotalSolved coerce) xs).Pairwise fun a b => specRank b ≤ specRank a := by
  unfold arraySort
  rw [List.pairwise_reverse]
  apply foldl_insertBack_pairwise specRank
  · intro a ha b hb
    rw [List.append_nil] at ha hb
    obtain ⟨na, hna⟩ := h a ha
    obtain ⟨nb, hnb⟩ := h b hb
    simp [compareTotalSolved, jsSub, toNumber, specRank, hna, hnb]
  · exact List.Pairwise.nil

theorem filterMap_range_spec {α : Type} (f : Nat → Option α) (n : Nat)
    (h : ∀ i, i < n → ∃ a, f i = some a) :
    ((List.range n).filterMap f).length = n ∧
      ∀ i, i < n → ((List.range n).filterMap f)[i]? = f i := by
  induction n with
  | zero => simp
  | succ n ih =>
    obtain ⟨hlen, hget⟩ := ih (fun i hi => h i (Nat.lt_succ_of_lt hi))
    obtain ⟨a, ha⟩ := h n (Nat.lt_succ_self n)
    have hsplit : (List.range (n + 1)).filterMap f = (List.range n).filterMap f ++ [a] := by
      rw [List.range_succ, List.filterMap_append]
      simp [ha]
    rw [hsplit]
    refine ⟨by simp [hlen], ?_⟩
    intro i hi
    by_cases hin : i < n
    · rw [List.getElem?_append_left (by omega)]
      exact hget i hin
    · have hi' : i = n := by omega
      subst hi'
      rw [List.getElem?_append_right (by omega), hlen, ha]
      simp

theorem processStudentData_record (roster : Roster) (upstream : Upstream) (i : Nat)
    (hi : i < roster.urls.length) :
    ∃ record, (processStudentData roster upstream i).record? = some record ∧
      record.roll = roster.rolls[i]? ∧ record.name = roster.names[i]? ∧
      some record.url = roster.urls[i]? ∧ record.sect = roster.sections[i]? ∧
      (startsWith record.url profilePrefix = true →
        fetchLeetTry (upstream i).1 (upstream i).2 = none →
        record.totalSolved = some (num 0) ∧ record.easySolved = some (num 0) ∧
        record.mediumSolved = some (num 0) ∧ record.hardSolved = some (num 0) ∧
        record.recentSubmissions = some (arr [])) := by
  have hurl : roster.urls[i]? = some roster.urls[i] := List.getElem?_eq_getElem hi
  cases hpre : startsWith roster.urls[i] profilePrefix with
  | false =>
    rw [processStudentData_direct roster upstream i _ hurl hpre]
    refine ⟨_, rfl, rfl, rfl, hurl.symm, rfl, ?_⟩
    intro h
    simp [hpre] at h
  | true =>
    obtain ⟨username, _, hp⟩ := processStudentData_awaited roster upstream i _ hurl hpre
    rw [hp]
    refine ⟨_, rfl, rfl, rfl, hurl.symm, rfl, ?_⟩
    intro _ hfail
    rw [fetchLeet_of_throw _ _ hfail]
    exact ⟨rfl, rfl, rfl, rfl, rfl⟩

theorem mapM_option_eq_some {α β : Type} (f : α → Option β) (g : α → β) (l : List α)
    (h : ∀ x ∈ l, f x = some (g x)) : l.mapM f = some (l.map g) := by
  induction l with
  | nil => rfl
  | cons x xs ih =>
    rw [List.mapM_cons, h x (List.mem_cons_self _ _),
      ih (fun y hy => h y (List.mem_cons_of_mem _ hy))]
    rfl

theorem recentEntry_eq (username : Option String) (submission : JSVal)
    (h : submission.isNullish = false) :
    recentEntry username submission = some (specEntry username submission) := by
  cases submission <;> simp [JSVal.isNullish] at h <;>
    simp [recentEntry, specEntry, JSVal.get]
  split <;> split <;> simp

theorem recentStep_eq (urls : List String) (upstream : Upstream) (i : Nat) (url : String)
    (hurl : urls[i]? = some url)
    (hwell : startsWith url profilePrefix = true →
      ∃ items, (fetchLeet (upstream i).1 (upstream i).2).recentSubmissions = arr items ∧
        ∀ item ∈ items, item.isNullish = false) :
    recentStep urls upstream i = some (specEntriesAt urls upstream i) := by
  unfold recentStep specEntriesAt
  rw [hurl]
  cases hpre : startsWith url profilePrefix with
  | false => simp [hpre]
  | true =>
    obtain ⟨items, hitems, hnn⟩ := hwell hpre
    simp only [hpre, if_true, hitems, recentForEach]
    exact mapM_option_eq_some _ _ _ (fun item hmem => recentEntry_eq _ _ (hnn item hmem))

theorem gatherRecent_eq (files : Files) (upstream : Upstream) (rollText urlText : String)
    (hroll : files.roll = some rollText) (hurls : files.urls = some urlText)
    (hlen : (readLines rollText).length ≤ (readLines urlText).length)
    (hwell : ∀ i url, i < (readLines rollText).length → (readLines urlText)[i]? = some url →
      startsWith url profilePrefix = true →
      ∃ items, (fetchLeet (upstream i).1 (upstream i).2).recentSubmissions = arr items ∧
        ∀ item ∈ items, item.isNullish = false) :
    gatherRecent files upstream
      = some (specGathered (readLines urlText) upstream (readLines rollText).length) := by
  have hmap : (List.range (readLines rollText).length).mapM (recentStep (readLines urlText) upstream)
      = some ((List.range (readLines rollText).length).map
          (specEntriesAt (readLines urlText) upstream)) := by
    apply mapM_option_eq_some
    intro i hi
    have hi := List.mem_range.1 hi
    have hurl : (readLines urlText)[i]? = some (readLines urlText)[i] :=
      List.getElem?_eq_getElem (by omega)
    exact recentStep_eq _ _ i _ hurl (hwell i _ hi hurl)
  simp only [gatherRecent, hroll, hurls, Option.bind_eq_bind, Option.some_bind, hmap,
    Option.pure_def, specGathered]

theorem specGathered_of_no_profile (urls : List String) (upstream : Upstream) (count : Nat)
    (h : ∀ url ∈ urls, startsWith url profilePrefix = false) :
    specGathered urls upstream count = [] := by
  unfold specGathered
  rw [List.flatten_eq_nil_iff]
  intro l hl
  obtain ⟨i, _, rfl⟩ := List.mem_map.1 hl
  unfold specEntriesAt
  cases hurl : urls[i]? with
  | none => rfl
  | some url =>
    have := h url (List.getElem?_mem hurl)
    simp [this]

theorem recentSubmissionsHandler_of_gathered (coerce : JSVal → Option Int) (files : Files)
    (upstream : Upstream) (gathered : List RecentEntry)
    (hg : gatherRecent files upstream = some gathered) :
    (gathered = [] → recentSubmissionsHandler coerce files upstream
        = { status := 404, body := .message "No recent submissions found." }) ∧
    (gathered ≠ [] → recentSubmissionsHandler coerce files upstream
        = { status := 200, body := .entries (arraySort (compareTimestamp coerce) gathered) }) := by
  constructor
  · intro hnil
    subst hnil
    simp [recentSubmissionsHandler, hg, arraySort]
  · intro hne
    have hlen : 0 < (arraySort (compareTimestamp coerce) gathered).length := by
      rw [(arraySort_perm _ _).length_eq]
      exact List.length_pos.2 hne
    simp [recentSubmissionsHandler, hg, hlen]

theorem fetchLeet_of_falsy (statsResponse recentResponse value recent : JSVal)
    (hstats : readAcSubmissionNum statsResponse = some value) (hfalsy : value.truthy = false)
    (hrecent : readRecentList recentResponse = some recent) :
    fetchLeet (.resolved statsResponse) (.resolved recentResponse)
      = { stats := zeroStats, recentSubmissions := recent.orEmpty } := by
  have hempty : value.orEmpty = arr [] := by simp [JSVal.orEmpty, hfalsy]
  simp only [fetchLeet, fetchLeetTry, Post.await, hstats, hrecent, hempty, statsForEach,
    Option.bind_eq_bind, Option.some_bind, Option.pure_def, List.foldlM_nil]

theorem mapM_option_eq_none {α β : Type} (f : α → Option β) (l : List α)
    (h : ∃ x ∈ l, f x = none) : l.mapM f = none := by
  induction l with
  | nil => simp at h
  | cons x xs ih =>
    rw [List.mapM_cons]
    cases hx : f x with
    | none => rfl
    | some y =>
      obtain ⟨z, hmem, hz⟩ := h
      rcases List.mem_cons.1 hmem with rfl | hmem
      · rw [hx] at hz; cases hz
      · rw [ih ⟨z, hmem, hz⟩]; rfl

theorem recentEntry_nullish (username : Option String) (submission : JSVal)
    (h : submission.isNullish = true) : recentEntry username submission = none := by
  have := (get_eq_none_iff submission "title").2 h
  simp [recentEntry, this]

theorem recentForEach_malformed (username : Option String) (submissions : JSVal)
    (h : ¬ WellFormedRecent submissions) : recentForEach username submissions = none := by
  cases submissions with
  | arr items =>
    have hex : ∃ item ∈ items, item.isNullish = true := by
      by_contra hno
      apply h
      refine ⟨items, rfl, ?_⟩
      intro item hmem
      cases hn : item.isNullish with
      | false => rfl
      | true => exact absurd ⟨item, hmem, hn⟩ hno
    obtain ⟨item, hmem, hn⟩ := hex
    exact mapM_option_eq_none _ _ ⟨item, hmem, recentEntry_nullish _ _ hn⟩
  | _ => rfl

theorem gatherRecent_malformed (files : Files) (upstream : Upstream) (rollText urlText : String)
    (hroll : files.roll = some rollText) (hurls : files.urls = some urlText)
    (h : ∃ i url, i < (readLines rollText).length ∧ (readLines urlText)[i]? = some url ∧
      startsWith url profilePrefix = true ∧
      ¬ WellFormedRecent (fetchLeet (upstream i).1 (upstream i).2).recentSubmissions) :
    gatherRecent files upstream = none := by
  obtain ⟨i, url, hi, hurl, hpre, hbad⟩ := h
  have hstep : recentStep (readLines urlText) upstream i = none := by
    simp only [recentStep, hurl, hpre, if_true]
    exact recentForEach_malformed _ _ hbad
  have hmap := mapM_option_eq_none (recentStep (readLines urlText) upstream)
    (List.range (readLines rollText).length) ⟨i, List.mem_range.2 hi, hstep⟩
  simp only [gatherRecent, hroll, hurls, Option.bind_eq_bind, Option.some_bind, hmap,
    Option.none_bind]

theorem arraySort_timestamp_descending (coerce : JSVal → Option Int) (xs : List RecentEntry)
    (key : RecentEntry → Int)
    (h : ∀ entry ∈ xs, toNumber coerce entry.timestamp = some (key entry)) :
    (arraySort (compareTimestamp coerce) xs).Pairwise fun a b => key b ≤ key a := by
  unfold arraySort
  rw [List.pairwise_reverse]
  apply foldl_insertBack_pairwise key
  · intro a ha b hb
    rw [List.append_nil] at ha hb
    simp [compareTimestamp, jsSub, h a ha, h b hb]
  · exact List.Pairwise.nil

/-! ## The claims -/

/-- C1, evaluated on the code: a roster of one entry without a profile URL and one whose fetch
brings `totalSolved = 5` is written with the record that has no `totalSolved` first, so the
ranks of the snapshot, a missing `totalSolved` counting as 0, read 0 then 5. -/
theorem snapshot_puts_missing_total_first (coerce : JSVal → Option Int) :
    (fetchAndSaveData coerce plainThenProfile (steadyUpstream 5 []) [1]).written.map
      (List.map specRank) = some [0, 5] := by
  rfl

/-- C2, evaluated on the code: for a roster of two entries, one with a profile URL whose fetch
brings `totalSolved = 42` and one without a profile URL, in either roster order, the first
element written carries the no-data marker and no `totalSolved`, and the second carries
`totalSolved = 42`. -/
theorem snapshot_of_two_puts_marker_first (coerce : JSVal → Option Int) :
    (fetchAndSaveData coerce profileThenPlain (steadyUpstream 42 []) [0]).written.map
        (List.map fun record => (record.info, record.totalSolved))
      = some [(some "No LeetCode data available", none), (none, some (num 42))] ∧
    (fetchAndSaveData coerce plainThenProfile (steadyUpstream 42 []) [1]).written.map
        (List.map fun record => (record.info, record.totalSolved))
      = some [(some "No LeetCode data available", none), (none, some (num 42))] := by
  exact ⟨rfl, rfl⟩

/-- C3 as stated fails: with `acSubmissionNum` null, which is not a list, and a
recent-submissions response carrying one submission, `fetchLeet` returns that submission, not
an empty list. -/
theorem fetchLeet_null_list_keeps_recent :
    readAcSubmissionNum (statsBody null) = some null ∧
    fetchLeet (.resolved (statsBody null)) (.resolved (recentBody (arr [sampleSubmission])))
      = { stats := zeroStats, recentSubmissions := arr [sampleSubmission] } ∧
    (fetchLeet (.resolved (statsBody null))
      (.resolved (recentBody (arr [sampleSubmission])))).recentSubmissions ≠ arr [] := by
  refine ⟨rfl, rfl, ?_⟩
  intro h
  have h2 : arr [sampleSubmission] = arr [] := h
  cases h2

/-- C3, amended: on every upstream failure (a rejected post, `data.matchedUser` or its
`submitStats` missing or null, an `acSubmissionNum` that is truthy and not a list, a null
element in that list) `fetchLeet` returns four zero counts and an empty list of recent
submissions; it is total, so nothing is raised to the caller. An `acSubmissionNum` that is
null, missing or otherwise falsy is no failure: when the recent-submissions response can be
read, `fetchLeet` returns four zero counts together with `recentAcSubmissionList || []`. -/
theorem fetchLeet_zero_on_failure (statsPost recentPost : Post) :
    (UpstreamFailure statsPost recentPost →
      fetchLeet statsPost recentPost = zeroFetched ∧
      zeroFetched = { stats := { totalSolved := num 0, easySolved := num 0,
                                 mediumSolved := num 0, hardSolved := num 0 },
                      recentSubmissions := arr [] }) ∧
    (∀ statsResponse recentResponse value recent,
      statsPost = .resolved statsResponse → recentPost = .resolved recentResponse →
      readAcSubmissionNum statsResponse = some value → value.truthy = false →
      readRecentList recentResponse = some recent →
      fetchLeet statsPost recentPost
        = { stats := { totalSolved := num 0, easySolved := num 0,
                       mediumSolved := num 0, hardSolved := num 0 },
            recentSubmissions := recent.orEmpty }) := by
  constructor
  · intro h
    exact ⟨fetchLeet_of_failure statsPost recentPost h, rfl⟩
  · intro statsResponse recentResponse value recent hs hr hstats hfalsy hrecent
    subst hs hr
    exact fetchLeet_of_falsy statsResponse recentResponse value recent hstats hfalsy hrecent

/-- C3, amended, at a stats response with `All = 42` followed by a rejected recent-submissions
post, and at a stats response without `acSubmissionNum` followed by one recent submission. -/
theorem fetchLeet_zero_on_failure_witness :
    UpstreamFailure (.resolved (statsBody (arr [countItem "All" 42]))) .rejected ∧
    fetchLeet (.resolved (statsBody (arr [countItem "All" 42]))) .rejected = zeroFetched ∧
    fetchLeet (.resolved (statsBody undefined)) (.resolved (recentBody (arr [sampleSubmission])))
      = { stats := zeroStats, recentSubmissions := arr [sampleSubmission] } :=
  ⟨UpstreamFailure.recentRejected _,
    ((fetchLeet_zero_on_failure _ _).1 (UpstreamFailure.recentRejected _)).1,
    (fetchLeet_zero_on_failure (.resolved (statsBody undefined))
      (.resolved (recentBody (arr [sampleSubmission])))).2
      (statsBody undefined) (recentBody (arr [sampleSubmission])) undefined
      (arr [sampleSubmission]) rfl rfl rfl rfl rfl⟩

/-- C4: when the roll, name, URL and section line counts are not all equal, a refresh calls
`fetchLeet` for nobody and writes nothing, so `data.json` keeps its content, or stays
absent. -/
theorem refresh_aborts_on_length_mismatch (coerce : JSVal → Option Int) (files : Files)
    (upstream : Upstream) (order : List Nat) (roster : Roster)
    (stringify : List StudentData → String) (before : Option String)
    (hload : loadRoster files = some roster)
    (hne : ¬ (roster.rolls.length = roster.names.length ∧
      roster.names.length = roster.urls.length ∧
      roster.urls.length = roster.sections.length)) :
    (fetchAndSaveData coerce files upstream order).fetched = [] ∧
      (fetchAndSaveData coerce files upstream order).written = none ∧
      snapshotAfter stringify before (fetchAndSaveData coerce files upstream order) = before := by
  have hcond : (roster.rolls.length != roster.names.length
      || roster.names.length != roster.urls.length
      || roster.names.length != roster.sections.length) = true := by
    by_contra hc
    simp only [Bool.not_eq_true, Bool.or_eq_false_iff, bne_eq_false_iff_eq] at hc
    exact hne ⟨hc.1.1, hc.1.2, by omega⟩
  have hres : fetchAndSaveData coerce files upstream order = { fetched := [], written := none } := by
    simp only [fetchAndSaveData, hload, hcond, if_true]
  rw [hres]
  exact ⟨rfl, rfl, rfl⟩

/-- C4 at a roster whose name list is one line short. -/
theorem refresh_aborts_on_length_mismatch_witness :
    loadRoster shortNames = some shortNamesRoster ∧
    (fetchAndSaveData (fun _ => none) shortNames (steadyUpstream 42 []) []).fetched = [] ∧
    (fetchAndSaveData (fun _ => none) shortNames (steadyUpstream 42 []) []).written = none ∧
    snapshotAfter (fun _ => "new") (some "old")
      (fetchAndSaveData (fun _ => none) shortNames (steadyUpstream 42 []) []) = some "old" :=
  ⟨rfl, refresh_aborts_on_length_mismatch (fun _ => none) shortNames (steadyUpstream 42 []) []
    shortNamesRoster (fun _ => "new") (some "old") rfl (by decide)⟩

/-- C5: when both posts resolve, `acSubmissionNum` is a list of objects and the recent list can
be read, the stats of `fetchLeet` are, field by field, the count of the last item labelled
`All`, `Easy`, `Medium`, `Hard`, or 0 without such an item; a list from which the items with
any other label are removed gives the same stats. -/
theorem fetchLeet_stats_by_label (statsResponse recentResponse recent : JSVal)
    (items : List JSVal)
    (hstats : readAcSubmissionNum statsResponse = some (arr items))
    (hitems : ∀ item ∈ items, ∃ fields, item = obj fields)
    (hrecent : readRecentList recentResponse = some recent) :
    (fetchLeet (.resolved statsResponse) (.resolved recentResponse)).stats = specStats items ∧
    ∀ trimmed, readAcSubmissionNum trimmed = some (arr (items.filter knownLabel)) →
      (fetchLeet (.resolved trimmed) (.resolved recentResponse)).stats
        = (fetchLeet (.resolved statsResponse) (.resolved recentResponse)).stats := by
  have hfull := fetchLeetTry_wellFormed statsResponse recentResponse recent items hstats hitems
    hrecent
  refine ⟨by rw [hfull], ?_⟩
  intro trimmed htrimmed
  have hsub : ∀ item ∈ items.filter knownLabel, ∃ fields, item = obj fields :=
    fun item hmem => hitems item (List.mem_filter.1 hmem).1
  rw [hfull, fetchLeetTry_wellFormed trimmed recentResponse recent _ htrimmed hsub hrecent]
  simp only [specStats]
  rw [lastCount_filter_known _ _ _ (Or.inl rfl), lastCount_filter_known _ _ _ (Or.inr (Or.inl rfl)),
    lastCount_filter_known _ _ _ (Or.inr (Or.inr (Or.inl rfl))),
    lastCount_filter_known _ _ _ (Or.inr (Or.inr (Or.inr rfl)))]

/-- C5 at the items `All 7`, `Other 9`, `Easy 4`, `All 12`. -/
theorem fetchLeet_stats_by_label_witness :
    (fetchLeet
      (.resolved (statsBody (arr [countItem "All" 7, countItem "Other" 9, countItem "Easy" 4,
        countItem "All" 12])))
      (.resolved (recentBody (arr [])))).stats
      = { totalSolved := num 12, easySolved := num 4, mediumSolved := num 0,
          hardSolved := num 0 } :=
  (fetchLeet_stats_by_label
    (statsBody (arr [countItem "All" 7, countItem "Other" 9, countItem "Easy" 4,
      countItem "All" 12]))
    (recentBody (arr [])) (arr [])
    [countItem "All" 7, countItem "Other" 9, countItem "Easy" 4, countItem "All" 12]
    rfl
    (by
      intro item hmem
      simp only [List.mem_cons, List.mem_singleton, List.not_mem_nil, or_false] at hmem
      rcases hmem with rfl | rfl | rfl | rfl <;> exact ⟨_, rfl⟩)
    rfl).1

/-- C6: `processStudentData` on an entry whose URL lacks the profile prefix pushes its record
without calling `fetchLeet`, with the no-data marker and none of `username`, `totalSolved`,
`easySolved`, `mediumSolved`, `hardSolved`, `recentSubmissions`; on an entry whose URL has the
prefix it calls `fetchLeet` and its record has all of these and no `info`. -/
theorem processStudentData_marker_or_stats (roster : Roster) (upstream : Upstream) (i : Nat)
    (url : String) (hurl : roster.urls[i]? = some url) :
    (startsWith url profilePrefix = false →
      ∃ record, processStudentData roster upstream i = .direct record ∧
        record.info = some "No LeetCode data available" ∧
        record.username = none ∧ record.totalSolved = none ∧ record.easySolved = none ∧
        record.mediumSolved = none ∧ record.hardSolved = none ∧
        record.recentSubmissions = none) ∧
    (startsWith url profilePrefix = true →
      ∃ username record, processStudentData roster upstream i = .awaited username record ∧
        record.username = some username ∧ record.totalSolved.isSome = true ∧
        record.easySolved.isSome = true ∧ record.mediumSolved.isSome = true ∧
        record.hardSolved.isSome = true ∧ record.recentSubmissions.isSome = true ∧
        record.info = none) := by
  constructor
  · intro hpre
    exact ⟨_, processStudentData_direct roster upstream i url hurl hpre,
      rfl, rfl, rfl, rfl, rfl, rfl, rfl⟩
  · intro hpre
    obtain ⟨username, _, hp⟩ := processStudentData_awaited roster upstream i url hurl hpre
    exact ⟨username, _, hp, rfl, rfl, rfl, rfl, rfl, rfl, rfl⟩

/-- C6 at the second entry of `profileThenPlainRoster`, whose URL is `none`. -/
theorem processStudentData_marker_or_stats_witness :
    profileThenPlainRoster.urls[1]? = some "none" ∧
    ∃ record, processStudentData profileThenPlainRoster (steadyUpstream 42 []) 1 = .direct record ∧
      record.info = some "No LeetCode data available" ∧ record.totalSolved = none := by
  refine ⟨rfl, ?_⟩
  obtain ⟨record, h1, h2, _, h3, _⟩ :=
    (processStudentData_marker_or_stats profileThenPlainRoster (steadyUpstream 42 []) 1 "none"
      rfl).1 rfl
  exact ⟨record, h1, h2, h3⟩

/-- C7 as stated fails: for a profile URL whose remainder holds another `/u/`, the refresh
extracts the part before that `/u/`, not the whole remainder. -/
theorem extractUsername_second_marker :
    startsWith "https://leetcode.com/u/a/u/b" profilePrefix = true ∧
    extractUsername "https://leetcode.com/u/a/u/b" = some "a" ∧
    specUsername "https://leetcode.com/u/a/u/b" = "a/u/b" ∧
    extractUsername "https://leetcode.com/u/a/u/b"
      ≠ some (specUsername "https://leetcode.com/u/a/u/b") := by
  refine ⟨rfl, rfl, rfl, ?_⟩
  decide

/-- C7, amended: for a URL that starts with the profile prefix and whose remainder holds no
further `/u/`, the username the refresh extracts is the URL with the prefix removed and then
one trailing slash removed. -/
theorem extractUsername_strips_prefix_and_slash (url : String)
    (hstart : startsWith url profilePrefix = true)
    (hno : ¬ "/u/".data <:+: url.data.drop profilePrefix.data.length) :
    extractUsername url = some (specUsername url) :=
  extractUsername_without_separator url hstart hno

/-- C7, amended, at `https://leetcode.com/u/alice/`. -/
theorem extractUsername_strips_prefix_and_slash_witness :
    startsWith "https://leetcode.com/u/alice/" profilePrefix = true ∧
    extractUsername "https://leetcode.com/u/alice/" = some "alice" :=
  ⟨rfl, extractUsername_strips_prefix_and_slash "https://leetcode.com/u/alice/" rfl (by decide)⟩

/-- C8 as stated fails, in three ways, each with a URL list at least as long as the roll list.
With a recent-submissions list holding a null element the handler answers 500. With one roll
number and a second URL that is a profile URL with a recent submission, the tuples of all
profile URLs are not empty, yet the handler, which visits the first `rolls.length` URLs
only, answers 404. With two recent submissions fetched in the order of timestamps 1, 2 the
handler answers 200 with the tuple of timestamp 2 first, not with the list as gathered. -/
theorem recentSubmissions_not_as_claimed :
    ((readLines "1").length ≤ (readLines "https://leetcode.com/u/alice").length ∧
      recentSubmissionsHandler (fun _ => none) singleProfile
        (fun _ => (.resolved (statsBody (arr [countItem "All" 42])),
          .resolved (recentBody (arr [null]))))
        = { status := 500, body := .message "Error fetching recent submissions." }) ∧
    ((readLines "1").length ≤ (readLines "none\nhttps://leetcode.com/u/alice").length ∧
      specGathered (readLines "none\nhttps://leetcode.com/u/alice")
          (steadyUpstream 42 [sampleSubmission])
          (readLines "none\nhttps://leetcode.com/u/alice").length
        = [{ username := some "alice", title := str "Two Sum",
             timestamp := str "1700000000" }] ∧
      recentSubmissionsHandler (fun _ => none) extraUrl (steadyUpstream 42 [sampleSubmission])
        = { status := 404, body := .message "No recent submissions found." }) ∧
    (specGathered (readLines "https://leetcode.com/u/alice")
          (steadyUpstream 42 [earlierSubmission, laterSubmission]) (readLines "1").length
        = [{ username := some "alice", title := str "Two Sum", timestamp := num 1 },
           { username := some "alice", title := str "Add Two Numbers", timestamp := num 2 }] ∧
      recentSubmissionsHandler (fun _ => none) singleProfile
          (steadyUpstream 42 [earlierSubmission, laterSubmission])
        = { status := 200,
            body := .entries
              [{ username := some "alice", title := str "Add Two Numbers", timestamp := num 2 },
               { username := some "alice", title := str "Two Sum", timestamp := num 1 }] }) :=
  ⟨⟨by decide, rfl⟩, ⟨by decide, rfl, rfl⟩, ⟨rfl, rfl⟩⟩

/-- C8, amended: let the URL list be at least as long as the roll list; the entries are the
first `rolls.length` indices. When every fetch for an entry with a profile URL returns as
recent submissions a list without null or undefined elements, the handler gathers the
flattened list of tuples of these entries; it answers 404 with a message exactly when that list
is empty, in particular when no URL has the profile prefix, and otherwise 200 with that list
reordered by the sort on line 193: a permutation of it, descending by timestamp whenever the
timestamps convert to integers. When some such fetch returns anything else, the handler answers
500 with a message. -/
theorem recentSubmissions_status (coerce : JSVal → Option Int) (files : Files)
    (upstream : Upstream) (rollText urlText : String)
    (hroll : files.roll = some rollText) (hurls : files.urls = some urlText)
    (hlen : (readLines rollText).length ≤ (readLines urlText).length) :
    ((∀ i url, i < (readLines rollText).length → (readLines urlText)[i]? = some url →
        startsWith url profilePrefix = true →
        WellFormedRecent (fetchLeet (upstream i).1 (upstream i).2).recentSubmissions) →
      ∃ gathered, gatherRecent files upstream = some gathered ∧
        gathered = specGathered (readLines urlText) upstream (readLines rollText).length ∧
        ((recentSubmissionsHandler coerce files upstream).status = 404 ↔ gathered = []) ∧
        (gathered = [] → recentSubmissionsHandler coerce files upstream
          = { status := 404, body := .message "No recent submissions found." }) ∧
        (gathered ≠ [] → ∃ sorted, recentSubmissionsHandler coerce files upstream
          = { status := 200, body := .entries sorted } ∧ sorted.Perm gathered ∧
          ∀ key : RecentEntry → Int,
            (∀ entry ∈ gathered, toNumber coerce entry.timestamp = some (key entry)) →
            sorted.Pairwise fun a b => key b ≤ key a) ∧
        ((∀ url ∈ readLines urlText, startsWith url profilePrefix = false) → gathered = [])) ∧
    ((∃ i url, i < (readLines rollText).length ∧ (readLines urlText)[i]? = some url ∧
        startsWith url profilePrefix = true ∧
        ¬ WellFormedRecent (fetchLeet (upstream i).1 (upstream i).2).recentSubmissions) →
      recentSubmissionsHandler coerce files upstream
        = { status := 500, body := .message "Error fetching recent submissions." }) := by
  constructor
  · intro hwell
    have hg := gatherRecent_eq files upstream rollText urlText hroll hurls hlen hwell
    obtain ⟨h404, h200⟩ := recentSubmissionsHandler_of_gathered coerce files upstream _ hg
    refine ⟨_, hg, rfl, ?_, h404, ?_, ?_⟩
    · constructor
      · intro hstatus
        by_contra hne
        rw [h200 hne] at hstatus
        cases hstatus
      · intro hnil
        rw [h404 hnil]
    · intro hne
      exact ⟨_, h200 hne, arraySort_perm _ _,
        fun key hkey => arraySort_timestamp_descending coerce _ key hkey⟩
    · exact specGathered_of_no_profile _ _ _
  · intro hbad
    have hg := gatherRecent_malformed files upstream rollText urlText hroll hurls hbad
    simp only [recentSubmissionsHandler, hg]

/-- C8, amended, at a roster of two entries, one with a profile URL and one recent submission:
the handler answers 200. -/
theorem recentSubmissions_status_witness :
    (readLines "1\n2").length ≤ (readLines "https://leetcode.com/u/bala\nnone").length ∧
    (recentSubmissionsHandler (fun _ => none) profileThenPlain
      (steadyUpstream 42 [sampleSubmission])).status = 200 := by
  refine ⟨by decide, ?_⟩
  obtain ⟨gathered, _, hspec, _, _, h200, _⟩ :=
    (recentSubmissions_status (fun _ => none) profileThenPlain
      (steadyUpstream 42 [sampleSubmission]) "1\n2" "https://leetcode.com/u/bala\nnone" rfl rfl
      (by decide)).1
      (by
        intro i url _ _ _
        refine ⟨[sampleSubmission], rfl, ?_⟩
        intro item hmem
        rw [List.mem_singleton.1 hmem]
        rfl)
  have hne : gathered ≠ [] := by
    rw [hspec]
    exact List.cons_ne_nil
      ({ username := some "bala", title := str "Two Sum", timestamp := str "1700000000" } :
        RecentEntry) []
  obtain ⟨sorted, hresp, _⟩ := h200 hne
  rw [hresp]

/-- C9, evaluated on the code: for the roster URL `https://leetcode.com/u/alice/` the handler of
`GET /recent-submissions` reports the username `alice/`, while the refresh calls `fetchLeet`
with `alice`. -/
theorem recentSubmissions_username_keeps_slash (coerce : JSVal → Option Int) :
    recentSubmissionsHandler coerce slashProfile (steadyUpstream 42 [sampleSubmission])
      = { status := 200,
          body := .entries [{ username := some "alice/", title := str "Two Sum",
                              timestamp := str "1700000000" }] } ∧
    (fetchAndSaveData coerce slashProfile (steadyUpstream 42 [sampleSubmission]) [0]).fetched
      = ["alice"] ∧
    splitUsername "https://leetcode.com/u/alice/" = some "alice/" ∧
    extractUsername "https://leetcode.com/u/alice/" = some "alice" :=
  ⟨rfl, rfl, rfl, rfl⟩

/-- C10 as stated fails: with one line in each of the roll, name, URL and section lists, so
four lists of equal length, and a `day.txt` that cannot be read, the refresh writes nothing. -/
theorem refresh_unreadable_day_writes_nothing :
    (readLines "1").length = (readLines "Asha").length ∧
    (readLines "Asha").length = (readLines "none").length ∧
    (readLines "Asha").length = (readLines "X").length ∧
    (fetchAndSaveData (fun _ => none) unreadableDay (steadyUpstream 42 []) []).written = none :=
  ⟨by decide, by decide, by decide, rfl⟩

/-- C10, amended: when all five roster files can be read and the roll, name, URL and section
lists have the same length n, then for every completion order of the awaited fetches and every
upstream outcome the array written to the snapshot has n records and is a permutation of the
per-index records: the i-th of these carries the i-th roll, name, url and section, and when its
fetch failed, the `try` block of `fetchLeet` throwing, it carries four zero counts and an empty
list of recent submissions. -/
theorem snapshot_is_permutation_of_roster (coerce : JSVal → Option Int) (files : Files)
    (upstream : Upstream) (order : List Nat) (roster : Roster)
    (hload : loadRoster files = some roster)
    (hnames : roster.rolls.length = roster.names.length)
    (hurls : roster.names.length = roster.urls.length)
    (hsections : roster.names.length = roster.sections.length)
    (horder : order.Perm (pendingCalls roster)) :
    ∃ snapshot perIndex : List StudentData,
      (fetchAndSaveData coerce files upstream order).written = some snapshot ∧
      snapshot.length = roster.rolls.length ∧
      snapshot.Perm perIndex ∧
      ∀ i, i < roster.rolls.length → ∃ record,
        perIndex[i]? = some record ∧
        (processStudentData roster upstream i).record? = some record ∧
        record.roll = roster.rolls[i]? ∧ record.name = roster.names[i]? ∧
        some record.url = roster.urls[i]? ∧ record.sect = roster.sections[i]? ∧
        (startsWith record.url profilePrefix = true →
          fetchLeetTry (upstream i).1 (upstream i).2 = none →
          record.totalSolved = some (num 0) ∧ record.easySolved = some (num 0) ∧
          record.mediumSolved = some (num 0) ∧ record.hardSolved = some (num 0) ∧
          record.recentSubmissions = some (arr [])) := by
  obtain ⟨snapshot, hwritten, hperm⟩ :=
    snapshot_perm coerce files upstream order roster hload hnames hurls hsections horder
  have hlt : ∀ i, i < roster.rolls.length → i < roster.urls.length := by
    intro i hi
    omega
  obtain ⟨hlen, hget⟩ := filterMap_range_spec
    (fun i => (processStudentData roster upstream i).record?) roster.rolls.length
    (fun i hi => by
      obtain ⟨record, hrec, _⟩ := processStudentData_record roster upstream i (hlt i hi)
      exact ⟨record, hrec⟩)
  refine ⟨snapshot, _, hwritten, ?_, hperm, ?_⟩
  · rw [hperm.length_eq, hlen]
  · intro i hi
    obtain ⟨record, hrec, hrest⟩ := processStudentData_record roster upstream i (hlt i hi)
    exact ⟨record, by rw [hget i hi, hrec], hrec, hrest⟩

/-- C10, amended, at a roster of two entries, the first with a profile URL. -/
theorem snapshot_is_permutation_of_roster_witness :
    loadRoster profileThenPlain = some profileThenPlainRoster ∧
    [0].Perm (pendingCalls profileThenPlainRoster) ∧
    ∃ snapshot,
      (fetchAndSaveData (fun _ => none) profileThenPlain (steadyUpstream 42 []) [0]).written
        = some snapshot ∧ snapshot.length = 2 := by
  refine ⟨rfl, List.Perm.refl _, ?_⟩
  obtain ⟨snapshot, _, hwritten, hlength, _⟩ :=
    snapshot_is_permutation_of_roster (fun _ => none) profileThenPlain (steadyUpstream 42 []) [0]
      profileThenPlainRoster rfl rfl rfl rfl (List.Perm.refl _)
  exact ⟨snapshot, hwritten, hlength⟩

end Leaderboard
